import Mathlib

/-
Verification of the report-generation pipeline of
`protoplaster/report_generators/system_report/protoplaster_system_report.py`.

The pipeline is embedded shallowly:
* Shell execution is abstracted by an oracle `Exec`.  The source always
  invokes scripts through `subprocess.check_output(..., shell=True)`,
  wrapping the script text in `sh -c`; a raised `CalledProcessError` (or any
  spawn error) is modelled as `none`, a captured combined stdout/stderr text
  as `some output`.  Summary scripts additionally receive the raw output on
  stdin and an extra environment variable, which is why they get their own
  oracle field taking the stdin text as a second argument.
* `sys.exit(1)` (configuration and privilege errors) and uncaught exceptions
  (the static-asset walk reading a missing file) are modelled as `none` of an
  `Option` result: the whole run aborts and no archive is written.
* `is_root()` is modelled as a boolean `isRoot` parameter, fixed before the
  configuration is parsed, exactly as the source consults it during
  `CommandConfig.__init__`.
* The YAML mapping handed to `read_commands` is modelled as an association
  list `List (String × RawCommand)` (Python dicts preserve insertion order);
  a `RawCommand` records, for every key the source tests with `in`, whether
  the key is present and which value it holds.  For the `output` key the
  source distinguishes presence (`"output" in config`) from the value
  (`config.get("output", None)` may still be `None` for an explicit YAML
  null), hence `Option (Option String)`.
-/

namespace Plaster

/-- Oracle for the two kinds of shell invocations the source performs:
`cmd s` is `get_cmd_output` of `sh -c` applied to the script text `s` for a
command or fallback script,
`summary s inp` is the `subprocess.check_output` call for a summary script
`s` fed the raw output `inp` on stdin (with the extra environment variable
`PROTOPLASTER_SCRIPTS`). `none` models a raised exception. -/
structure Exec where
  cmd : String → Option String
  summary : String → String → Option String

/-- The validated summary configuration built by `SummaryConfig.__init__`. -/
structure SummaryConfig where
  title : String
  script : String
deriving DecidableEq

/-- The validated command configuration built by `CommandConfig.__init__`.
`on_fail` is the recursively validated fallback spec. -/
inductive CommandConfig where
  | mk : String → String → List SummaryConfig → Option String →
      Option CommandConfig → CommandConfig

def CommandConfig.name : CommandConfig → String
  | .mk n _ _ _ _ => n

def CommandConfig.script : CommandConfig → String
  | .mk _ s _ _ _ => s

def CommandConfig.summary_configs : CommandConfig → List SummaryConfig
  | .mk _ _ scs _ _ => scs

def CommandConfig.output_file : CommandConfig → Option String
  | .mk _ _ _ o _ => o

def CommandConfig.on_fail : CommandConfig → Option CommandConfig
  | .mk _ _ _ _ f => f

/-- The `SubReportSummary` dataclass. -/
structure SubReportSummary where
  title : String
  content : String
deriving DecidableEq

/-- The `SubReportResult` dataclass.  The source annotates `output_file`
as `str` but stores `config.output_file`, which may be `None`. -/
structure SubReportResult where
  name : String
  raw_output : String
  output_file : Option String
  summaries : List SubReportSummary
deriving DecidableEq

/-- A raw (unvalidated) summary entry: which of the keys `title` and `run`
are present, and their values. -/
structure RawSummary where
  title : Option String
  run : Option String

/-- A raw (unvalidated) command entry of the YAML mapping: presence and
value of the keys `run`, `output`, `superuser`, `summary`, `on-fail`.
For `output` an explicit YAML null is `some none`. -/
inductive RawCommand where
  | mk : Option String → Option (Option String) → Option String →
      List RawSummary → Option RawCommand → RawCommand

def RawCommand.run : RawCommand → Option String
  | .mk r _ _ _ _ => r

def RawCommand.output : RawCommand → Option (Option String)
  | .mk _ o _ _ _ => o

def RawCommand.superuser : RawCommand → Option String
  | .mk _ _ s _ _ => s

def RawCommand.summary : RawCommand → List RawSummary
  | .mk _ _ _ l _ => l

def RawCommand.onFail : RawCommand → Option RawCommand
  | .mk _ _ _ _ f => f

/-- `SummaryConfig.__init__`: requires both `title` and `run` keys, else
`sys.exit(1)`. -/
def parseSummary (rs : RawSummary) : Option SummaryConfig :=
  match rs.title, rs.run with
  | some t, some r => some ⟨t, r⟩
  | _, _ => none

/-- The list comprehension `[SummaryConfig(c) for c in config.get("summary", [])]`;
any incomplete entry aborts. -/
def parseSummaries : List RawSummary → Option (List SummaryConfig)
  | [] => some []
  | rs :: rest =>
    match parseSummary rs, parseSummaries rest with
    | some sc, some scs => some (sc :: scs)
    | _, _ => none

/-- The check `"superuser" not in config or config["superuser"] in
["required", "preferred"]`. -/
def superuserCorrect (su : Option String) : Bool :=
  su.isNone || su == some "required" || su == some "preferred"

/-- `CommandConfig.__init__` for one `(name, config)` item.  Field checks,
then the privilege gate (fatal only for `superuser == "required"` without
root; the `preferred` branch merely prints a warning), then the summary
configs, then `output_file = config.get("output", None)`, then the recursive
`on-fail` spec. -/
def parseCommand (isRoot : Bool) (name : String) : RawCommand → Option CommandConfig
  | .mk run output su summ onFail =>
    if !(run.isSome && output.isSome) || !superuserCorrect su then
      none
    else if su.isSome && !isRoot && su == some "required" then
      none
    else
      match parseSummaries summ with
      | none => none
      | some scs =>
        match onFail with
        | none => some (.mk name (run.getD "") scs output.join none)
        | some rc =>
          match parseCommand isRoot name rc with
          | none => none
          | some sub => some (.mk name (run.getD "") scs output.join (some sub))

/-- `read_commands`: builds a `CommandConfig` for every item of the mapping,
in order; any configuration or privilege error aborts the whole run. -/
def read_commands (isRoot : Bool) : List (String × RawCommand) → Option (List CommandConfig)
  | [] => some []
  | (n, rc) :: rest =>
    match parseCommand isRoot n rc with
    | none => none
    | some cfg =>
      match read_commands isRoot rest with
      | none => none
      | some cfgs => some (cfg :: cfgs)

/-- The summary loop of `run_command`: each summary script is attempted with
the raw output `out` on stdin; a failing script is swallowed and replaced by
the sentinel text. -/
def run_summaries (ex : Exec) (out : String) : List SummaryConfig → List SubReportSummary
  | [] => []
  | sc :: rest =>
    (match ex.summary sc.script out with
     | some content => ⟨sc.title, content⟩
     | none => ⟨sc.title, "this summary is empty"⟩) :: run_summaries ex out rest

/-- `run_command`: run the script; on success build the result from this
spec (its name, the captured output, its `output_file`, its summaries); on
failure recurse into `on_fail` when present, else return `None`. -/
def run_command (ex : Exec) : CommandConfig → Option SubReportResult
  | .mk name script scs outf onFail =>
    match ex.cmd script with
    | some out => some ⟨name, out, outf, run_summaries ex out scs⟩
    | none =>
      match onFail with
      | some fb => run_command ex fb
      | none => none

/-- The fallback chain of a spec: the spec itself followed by the chain of
its fallback. -/
def chain : CommandConfig → List CommandConfig
  | .mk n s scs o onFail =>
    .mk n s scs o onFail ::
      (match onFail with
       | some fb => chain fb
       | none => [])

/-
The static-asset walk.  The directory passed to `read_files_from_dir` is a
finite tree of regular files; directory entry names are irrelevant to the
produced archive entries (entries are named `static/<filename>` with the
bare filename), so a tree node carries only its regular files (name,
content) and its subdirectories.
-/

mutual
/-- A directory: its regular files (name, content) and subdirectories. -/
inductive DirTree where
  | node : List (String × String) → DirForest → DirTree

/-- A list of subdirectories. -/
inductive DirForest where
  | nil : DirForest
  | cons : DirTree → DirForest → DirForest
end

def DirTree.files : DirTree → List (String × String)
  | .node fs _ => fs

def DirTree.dirs : DirTree → DirForest
  | .node _ ds => ds

/-- Text-mode `open` of `os.path.join(dir, file)` for a bare filename:
looks the name up among the direct regular files of `dir`; a missing file
raises (models `FileNotFoundError`/`IsADirectoryError`). -/
def lookupFile : List (String × String) → String → Option String
  | [], _ => none
  | (n, c) :: rest, name => if n = name then some c else lookupFile rest name

/-- The inner file loop of `read_files_from_dir` for one `os.walk` triple:
for each filename yielded by the walk, open it relative to `top` (the `dir`
ARGUMENT of the enclosing call, not the walk root — faithful to the source,
which joins `dir`, not `root`) and append `("static/" ++ name, content)`.
`none` models the raised exception on a missing file. -/
def openAll (top : DirTree) : List (String × String) → List (String × String) →
    Option (List (String × String))
  | [], dest => some dest
  | (n, _) :: rest, dest =>
    (lookupFile top.files n).bind fun content =>
      openAll top rest (dest ++ [("static/" ++ n, content)])

/-
`read_files_from_dir(dir, dest)` iterates `for root, dirs, files in
os.walk(dir)` and, per triple, first opens every yielded filename against
`dir` and then manually recurses with `read_files_from_dir(join(root,
dirname), dest)` for each subdirectory of the triple.  Since `os.walk` is
top-down, the triples of `dir` are: `dir` itself, then (recursively) the
triples of each subdirectory in order.  Processing the triple of a subtree
`s` inside the call whose argument is `top` therefore means: open the
filenames of `s` against `top`, run the full function on every
subdirectory `c` of `s` (the manual recursion — a fresh call with `c` as
the new `top`), and then continue with the walk triples of each
subdirectory of `s`, still opening against `top`.  That processing step is
`visit top s`; the whole call is `visit dir dir`.
-/

mutual
/-- Process the walk triples of subtree `s` (in `os.walk` top-down order)
inside a `read_files_from_dir` call whose `dir` argument is `top`. -/
def visit (top : DirTree) : DirTree → List (String × String) →
    Option (List (String × String))
  | .node fs ds, dest =>
    (openAll top fs dest).bind fun d1 =>
      (visitSelf ds d1).bind fun d2 => visitSub top ds d2

/-- The manual recursion `read_files_from_dir(join(root, dirname), dest)`
over the subdirectories of a triple: each subdirectory starts a fresh call
with itself as the new `dir`. -/
def visitSelf : DirForest → List (String × String) →
    Option (List (String × String))
  | .nil, dest => some dest
  | .cons t ts, dest =>
    (visit t t dest).bind fun d1 => visitSelf ts d1

/-- The remaining walk triples contributed by the subdirectories of a
triple, still opening filenames against `top`. -/
def visitSub (top : DirTree) : DirForest → List (String × String) →
    Option (List (String × String))
  | .nil, dest => some dest
  | .cons t ts, dest =>
    (visit top t dest).bind fun d1 => visitSub top ts d1
end

/-- `read_files_from_dir(dir, dest)`: append an entry for every filename
yielded by the (doubly recursive) walk, or fail on the first unopenable
file.  `none` propagates as a fatal, uncaught exception. -/
def read_files_from_dir (dir : DirTree) (dest : List (String × String)) :
    Option (List (String × String)) :=
  visit dir dir dest

/-- Python truthiness of the optional `output` value: `None` and the empty
string are falsy (the source tests `if config.output_file:`). -/
def optTruthy : Option String → Bool
  | none => false
  | some s => !(s == "")

/-- The per-command loop of `generate_system_report`: for each config (in
order) run the command (the worker thread and spinner are purely
observational and do not affect the produced values); a produced result is
appended to `sub_reports`, and when the TOP-LEVEL config declares a truthy
`output_file`, the pair `(config.output_file, sub_report.raw_output)` is
appended to `files`. -/
def reportLoop (ex : Exec) : List CommandConfig →
    List (String × String) × List SubReportResult
  | [] => ([], [])
  | c :: rest =>
    let tail := reportLoop ex rest
    match run_command ex c with
    | some r =>
      (if optTruthy c.output_file
        then (c.output_file.getD "", r.raw_output) :: tail.1
        else tail.1,
       r :: tail.2)
    | none => tail

/-- `generate_system_report`: read and validate the configs (any error
aborts before anything runs), drive the commands sequentially, then append
the rendered HTML index, the stylesheet and the static-asset entries.
`render` is the external templating capability (`generate_html`), `css` the
content of `style.css`, `st` the static-assets directory. -/
def generate_system_report (ex : Exec) (render : List SubReportResult → String)
    (css : String) (st : DirTree) (raw : List (String × RawCommand))
    (isRoot : Bool) : Option (List (String × String)) :=
  match read_commands isRoot raw with
  | none => none
  | some configs =>
    let results := reportLoop ex configs
    read_files_from_dir st
      ((results.1 ++ [("system_report_summary.html", render results.2)]) ++
        [("style.css", css)])

/-
Derived definitions used to state the claims.
-/

/-- The `(outputFile, rawOutput)` pairs contributed to the archive by the
commands, in execution order: one pair per command that produced a result
and whose top-level config declares a truthy `output` value. -/
def commandFiles (ex : Exec) : List CommandConfig → List (String × String)
  | [] => []
  | c :: rest =>
    (match run_command ex c with
     | some r =>
       if optTruthy c.output_file then [(c.output_file.getD "", r.raw_output)] else []
     | none => []) ++ commandFiles ex rest

/-- The sub-reports handed to the HTML template: the results of the
commands that produced one, in execution order. -/
def subReportsOf (ex : Exec) (cs : List CommandConfig) : List SubReportResult :=
  cs.filterMap (run_command ex)

/-- Some spec in the fallback tree of this raw command carries
`superuser: required`. -/
def hasRequiredPriv : RawCommand → Bool
  | .mk _ _ su _ onFail =>
    su == some "required" ||
      (match onFail with
       | some rc => hasRequiredPriv rc
       | none => false)

/-- Every spec in the fallback tree of this raw command has either no
`superuser` key or `superuser: preferred`. -/
def onlyPreferredPriv : RawCommand → Bool
  | .mk _ _ su _ onFail =>
    (su.isNone || su == some "preferred") &&
      (match onFail with
       | some rc => onlyPreferredPriv rc
       | none => true)

/-
Helper lemmas.
-/

theorem run_summaries_length (ex : Exec) (out : String) :
    ∀ scs : List SummaryConfig, (run_summaries ex out scs).length = scs.length
  | [] => rfl
  | _ :: rest => by
    simp only [run_summaries, List.length_cons, run_summaries_length ex out rest]

theorem run_summaries_get (ex : Exec) (out : String) :
    ∀ (scs : List SummaryConfig) (i : Nat) (sc : SummaryConfig),
      scs.get? i = some sc → ex.summary sc.script out = none →
      (run_summaries ex out scs).get? i = some ⟨sc.title, "this summary is empty"⟩
  | c :: rest, 0, sc, hi, hf => by
    cases hi
    simp only [run_summaries, List.get?, hf]
  | c :: rest, i + 1, sc, hi, hf => by
    simp only [List.get?] at hi
    simp only [run_summaries, List.get?]
    exact run_summaries_get ex out rest i sc hi hf

theorem run_command_chain (ex : Exec) :
    ∀ (cfg ck : CommandConfig) (k : Nat),
      (chain cfg).get? k = some ck →
      ((chain cfg).take k).all (fun c => ex.cmd c.script == none) = true →
      ∀ o : String, ex.cmd ck.script = some o →
      run_command ex cfg =
        some ⟨ck.name, o, ck.output_file, run_summaries ex o ck.summary_configs⟩
  | .mk n s scs outf none, ck, 0, hk, _, o, hsucc => by
    simp only [chain, List.get?, Option.some.injEq] at hk
    subst hk
    simp only [CommandConfig.script] at hsucc
    simp only [run_command, hsucc, CommandConfig.name, CommandConfig.output_file,
      CommandConfig.summary_configs]
  | .mk n s scs outf (some fb), ck, 0, hk, _, o, hsucc => by
    simp only [chain, List.get?, Option.some.injEq] at hk
    subst hk
    simp only [CommandConfig.script] at hsucc
    simp only [run_command, hsucc, CommandConfig.name, CommandConfig.output_file,
      CommandConfig.summary_configs]
  | .mk n s scs outf none, ck, k + 1, hk, _, o, _ => by
    simp [chain, List.get?] at hk
  | .mk n s scs outf (some fb), ck, k + 1, hk, hfail, o, hsucc => by
    have hk2 : (chain fb).get? k = some ck := by
      simpa only [chain, List.get?] using hk
    simp only [chain, List.take_succ_cons, List.all_cons, Bool.and_eq_true,
      CommandConfig.script] at hfail
    have hhead : ex.cmd s = none := by simpa using hfail.1
    have ih := run_command_chain ex fb ck k hk2 hfail.2 o hsucc
    simp only [run_command, hhead]
    exact ih

theorem run_command_mem_chain (ex : Exec) :
    ∀ (cfg : CommandConfig) (r : SubReportResult), run_command ex cfg = some r →
      ∃ c, c ∈ chain cfg ∧ ex.cmd c.script = some r.raw_output ∧
        r.summaries.length = c.summary_configs.length
  | .mk n s scs outf none, r, h => by
    simp only [run_command] at h
    cases hcmd : ex.cmd s with
    | none => rw [hcmd] at h; cases h
    | some out =>
      rw [hcmd] at h
      injection h with h
      subst h
      refine ⟨.mk n s scs outf none, ?_, ?_, ?_⟩
      · simp [chain]
      · simpa [CommandConfig.script] using hcmd
      · simp [CommandConfig.summary_configs, run_summaries_length]
  | .mk n s scs outf (some fb), r, h => by
    simp only [run_command] at h
    cases hcmd : ex.cmd s with
    | none =>
      rw [hcmd] at h
      have h2 : run_command ex fb = some r := h
      obtain ⟨c, hc, hcm, hlen⟩ := run_command_mem_chain ex fb r h2
      refine ⟨c, ?_, hcm, hlen⟩
      simp only [chain]
      exact List.mem_cons_of_mem _ hc
    | some out =>
      rw [hcmd] at h
      injection h with h
      subst h
      refine ⟨.mk n s scs outf (some fb), ?_, ?_, ?_⟩
      · simp [chain]
      · simpa [CommandConfig.script] using hcmd
      · simp [CommandConfig.summary_configs, run_summaries_length]

theorem parse_required_none :
    ∀ (rc : RawCommand) (name : String), hasRequiredPriv rc = true →
      parseCommand false name rc = none
  | .mk run output su summ none, name, h => by
    have hsu : su = some "required" := by
      simpa [hasRequiredPriv] using h
    subst hsu
    cases h1 : (!(run.isSome && output.isSome) || !superuserCorrect (some "required")) with
    | true => simp only [parseCommand, h1]; rfl
    | false => simp only [parseCommand, h1]; rfl
  | .mk run output su summ (some rc2), name, h => by
    cases h1 : (!(run.isSome && output.isSome) || !superuserCorrect su) with
    | true => simp only [parseCommand, h1]; rfl
    | false =>
      rcases eq_or_ne su (some "required") with hsu | hsu
      · subst hsu
        simp only [parseCommand, h1]; rfl
      · have h2 : hasRequiredPriv rc2 = true := by
          simp only [hasRequiredPriv, Bool.or_eq_true, beq_iff_eq] at h
          rcases h with h | h
          · exact absurd h hsu
          · exact h
        have hb : (su == some "required") = false := beq_eq_false_iff_ne.mpr hsu
        have ih := parse_required_none rc2 name h2
        simp only [parseCommand, h1, hb, Bool.and_false]
        cases hps : parseSummaries summ with
        | none => simp only [hps]; rfl
        | some scs => simp only [hps, ih]; rfl

theorem read_commands_none_of_mem (raw : List (String × RawCommand))
    (h : ∃ p ∈ raw, hasRequiredPriv p.2 = true) :
    read_commands false raw = none := by
  induction raw with
  | nil => simp at h
  | cons p rest ih =>
    obtain ⟨q, hq, hreq⟩ := h
    rcases List.mem_cons.mp hq with rfl | hq2
    · obtain ⟨n, rc⟩ := q
      simp only [read_commands, parse_required_none rc n hreq]
    · obtain ⟨n, rc⟩ := p
      simp only [read_commands]
      cases parseCommand false n rc with
      | none => rfl
      | some cfg => rw [ih ⟨q, hq2, hreq⟩]

theorem parse_root_indep :
    ∀ (rc : RawCommand) (name : String), onlyPreferredPriv rc = true →
      parseCommand false name rc = parseCommand true name rc
  | .mk run output su summ none, name, h => by
    have hne : (su == some "required") = false := by
      simp only [onlyPreferredPriv, Bool.and_eq_true, Bool.or_eq_true, beq_iff_eq] at h
      rcases h.1 with h1 | h1
      · rcases su with _ | v
        · rfl
        · simp at h1
      · subst h1; decide
    simp [parseCommand, hne]
  | .mk run output su summ (some rc2), name, h => by
    have h2 : onlyPreferredPriv rc2 = true := by
      simp only [onlyPreferredPriv, Bool.and_eq_true] at h
      exact h.2
    have hne : (su == some "required") = false := by
      simp only [onlyPreferredPriv, Bool.and_eq_true, Bool.or_eq_true, beq_iff_eq] at h
      rcases h.1 with h1 | h1
      · rcases su with _ | v
        · rfl
        · simp at h1
      · subst h1; decide
    have ih := parse_root_indep rc2 name h2
    simp [parseCommand, hne, ih]

theorem openAll_append (top : DirTree) :
    ∀ (names dest : List (String × String)),
      openAll top names dest = (openAll top names []).map (fun tail => dest ++ tail)
  | [], dest => by simp [openAll]
  | (n, c) :: rest, dest => by
    simp only [openAll]
    cases lookupFile top.files n with
    | none => rfl
    | some content =>
      simp only [Option.some_bind]
      rw [openAll_append top rest (dest ++ [("static/" ++ n, content)]),
        openAll_append top rest ([] ++ [("static/" ++ n, content)])]
      cases openAll top rest [] with
      | none => rfl
      | some tail => simp

mutual

theorem visit_append (top : DirTree) :
    ∀ (s : DirTree) (dest : List (String × String)),
      visit top s dest = (visit top s []).map (fun tail => dest ++ tail)
  | .node fs ds, dest => by
    simp only [visit]
    rw [openAll_append top fs dest]
    cases h1 : openAll top fs [] with
    | none => rfl
    | some t1 =>
      simp only [Option.map_some', Option.some_bind]
      rw [visitSelf_append ds (dest ++ t1), visitSelf_append ds t1]
      cases h2 : visitSelf ds [] with
      | none => rfl
      | some t2 =>
        simp only [Option.map_some', Option.some_bind]
        rw [visitSub_append top ds (dest ++ t1 ++ t2),
          visitSub_append top ds (t1 ++ t2)]
        cases h3 : visitSub top ds [] with
        | none => rfl
        | some t3 => simp

theorem visitSelf_append :
    ∀ (ds : DirForest) (dest : List (String × String)),
      visitSelf ds dest = (visitSelf ds []).map (fun tail => dest ++ tail)
  | .nil, dest => by simp [visitSelf]
  | .cons t ts, dest => by
    simp only [visitSelf]
    rw [visit_append t t dest]
    cases h1 : visit t t [] with
    | none => rfl
    | some t1 =>
      simp only [Option.map_some', Option.some_bind]
      rw [visitSelf_append ts (dest ++ t1), visitSelf_append ts t1]
      cases h2 : visitSelf ts [] with
      | none => rfl
      | some t2 => simp

theorem visitSub_append (top : DirTree) :
    ∀ (ds : DirForest) (dest : List (String × String)),
      visitSub top ds dest = (visitSub top ds []).map (fun tail => dest ++ tail)
  | .nil, dest => by simp [visitSub]
  | .cons t ts, dest => by
    simp only [visitSub]
    rw [visit_append top t dest]
    cases h1 : visit top t [] with
    | none => rfl
    | some t1 =>
      simp only [Option.map_some', Option.some_bind]
      rw [visitSub_append top ts (dest ++ t1), visitSub_append top ts t1]
      cases h2 : visitSub top ts [] with
      | none => rfl
      | some t2 => simp

end

theorem read_files_append (st : DirTree) (dest : List (String × String)) :
    read_files_from_dir st dest =
      (read_files_from_dir st []).map (fun tail => dest ++ tail) :=
  visit_append st st dest

theorem lookup_self_of_nodup :
    ∀ (fs : List (String × String)) (n c : String),
      (fs.map Prod.fst).Nodup → (n, c) ∈ fs → lookupFile fs n = some c
  | [], n, c, _, hm => absurd hm (List.not_mem_nil _)
  | (m, d) :: rest, n, c, hnd, hm => by
    have hnd2 : (∀ x : String, (m, x) ∉ rest) ∧ (rest.map Prod.fst).Nodup := by
      simpa using hnd
    rcases List.mem_cons.mp hm with heq | hm2
    · cases heq
      simp [lookupFile]
    · have hne : m ≠ n := by
        intro he
        exact hnd2.1 c (he ▸ hm2)
      simp only [lookupFile, if_neg hne]
      exact lookup_self_of_nodup rest n c hnd2.2 hm2

theorem openAll_lookup (top : DirTree) :
    ∀ (names dest : List (String × String)),
      (∀ p ∈ names, lookupFile top.files p.1 = some p.2) →
      openAll top names dest =
        some (dest ++ names.map (fun p => ("static/" ++ p.1, p.2)))
  | [], dest, _ => by simp [openAll]
  | (n, c) :: rest, dest, h => by
    have hn : lookupFile top.files n = some c := h (n, c) (List.mem_cons_self _ _)
    simp only [openAll, hn, Option.some_bind]
    rw [openAll_lookup top rest (dest ++ [("static/" ++ n, c)])
      (fun p hp => h p (List.mem_cons_of_mem _ hp))]
    simp

theorem run_command_of_success (ex : Exec) :
    ∀ (cfg : CommandConfig) (out : String), ex.cmd cfg.script = some out →
      run_command ex cfg =
        some ⟨cfg.name, out, cfg.output_file, run_summaries ex out cfg.summary_configs⟩
  | .mk n s scs outf none, out, h => by
    simp only [CommandConfig.script] at h
    simp only [run_command, h, CommandConfig.name, CommandConfig.output_file,
      CommandConfig.summary_configs]
  | .mk n s scs outf (some fb), out, h => by
    simp only [CommandConfig.script] at h
    simp only [run_command, h, CommandConfig.name, CommandConfig.output_file,
      CommandConfig.summary_configs]

theorem reportLoop_fst (ex : Exec) :
    ∀ cs : List CommandConfig, (reportLoop ex cs).1 = commandFiles ex cs
  | [] => rfl
  | c :: rest => by
    simp only [reportLoop, commandFiles]
    cases run_command ex c with
    | none => simpa using reportLoop_fst ex rest
    | some r =>
      cases htr : optTruthy c.output_file with
      | true => simpa [htr] using reportLoop_fst ex rest
      | false => simpa [htr] using reportLoop_fst ex rest

theorem reportLoop_snd (ex : Exec) :
    ∀ cs : List CommandConfig, (reportLoop ex cs).2 = subReportsOf ex cs
  | [] => rfl
  | c :: rest => by
    simp only [reportLoop, subReportsOf, List.filterMap_cons]
    cases run_command ex c with
    | none => simpa [subReportsOf] using reportLoop_snd ex rest
    | some r => simpa [subReportsOf] using reportLoop_snd ex rest

theorem read_commands_root_indep :
    ∀ raw : List (String × RawCommand),
      raw.all (fun p => onlyPreferredPriv p.2) = true →
      read_commands false raw = read_commands true raw
  | [], _ => rfl
  | (n, rc) :: rest, h => by
    simp only [List.all_cons, Bool.and_eq_true] at h
    simp only [read_commands, parse_root_indep rc n h.1,
      read_commands_root_indep rest h.2]

/-
Concrete fixtures used by the witnesses and counterexamples below.
-/

/-- A sample oracle: the script `"good"` succeeds with output `"out1\n"`,
the summary script `"sumgood"` succeeds with `"S"`, everything else fails. -/
def exA : Exec :=
  ⟨fun s => if s = "good" then some "out1\n" else none,
   fun s _ => if s = "sumgood" then some "S" else none⟩

/-- A validated spec whose script succeeds under `exA`. -/
def cfgChild : CommandConfig := .mk "c" "good" [] (some "c2.txt") none

/-- A validated spec whose script fails under `exA` and whose fallback is
`cfgChild`. -/
def cfgB : CommandConfig := .mk "c" "bad" [] (some "c.txt") (some cfgChild)

/-- A validated spec with one summary whose script fails under `exA`. -/
def cfgC : CommandConfig := .mk "c" "good" [⟨"t1", "sumbad"⟩] none none

/-- A validated spec corresponding to the raw config of `rawDisk`. -/
def cfgDisk : CommandConfig := .mk "disk" "good" [] (some "disk.txt") none

/-- A raw one-command configuration whose command succeeds under `exA`. -/
def rawDisk : List (String × RawCommand) :=
  [("disk", .mk (some "good") (some (some "disk.txt")) none [] none)]

/-- The raw `net` configuration of the spec example: the top-level object
maps `run` to the failing command `false` and `on-fail` to a spec whose
`run` is `echo fallback-ok` and whose `output` is `net.txt`.  The top-level
object has `run` but no `output` key. -/
def rawNet : RawCommand :=
  .mk (some "false") none none []
    (some (.mk (some "echo fallback-ok") (some (some "net.txt")) none [] none))

/-- An oracle for the `net` example: `echo fallback-ok` succeeds with
`"fallback-ok\n"`, everything else (in particular `false`) fails. -/
def exC4 : Exec :=
  ⟨fun s => if s = "echo fallback-ok" then some "fallback-ok\n" else none,
   fun _ _ => none⟩

/-- A raw configuration whose single command demands `superuser: required`. -/
def rawReq : List (String × RawCommand) :=
  [("x", .mk (some "true") (some (some "x.txt")) (some "required") [] none)]

/-- A raw configuration whose single command asks for
`superuser: preferred`. -/
def rawPref : List (String × RawCommand) :=
  [("disk", .mk (some "du") (some (some "disk.txt")) (some "preferred") [] none)]

/-- A raw command object with `run` but without the `output` key. -/
def rawNoOutput : RawCommand := .mk (some "true") none none [] none

/-- A static-assets directory with a single nested subdirectory holding a
file that does not exist at the top level. -/
def stNested : DirTree := .node [] (.cons (.node [("a.txt", "x")] .nil) .nil)

/-- A flat static-assets directory. -/
def stFlat : DirTree := .node [("s.txt", "z")] .nil

/-- A constant stand-in for the external HTML templating capability. -/
def renderH : List SubReportResult → String := fun _ => "H"

/-
The claims.
-/

/-- Claim C1: for every fallback chain in which the attempts before
position `k` fail and the attempt at position `k` succeeds with captured
output `o`, `run_command` returns a `SubReportResult` built entirely from
attempt `k`: its `raw_output` is exactly `o`, and its name, output file and
summaries also come from attempt `k` — nothing of the earlier, failed
attempts is merged in. -/
theorem claim_C1 (ex : Exec) (cfg ck : CommandConfig) (k : Nat) (o : String)
    (hk : (chain cfg).get? k = some ck)
    (hfail : ((chain cfg).take k).all (fun c => ex.cmd c.script == none) = true)
    (hsucc : ex.cmd ck.script = some o) :
    run_command ex cfg =
      some ⟨ck.name, o, ck.output_file, run_summaries ex o ck.summary_configs⟩ :=
  run_command_chain ex cfg ck k hk hfail o hsucc

/-- Witness for C1: a chain of length 2 whose first attempt fails and whose
second succeeds. -/
theorem claim_C1_witness :
    run_command exA cfgB = some ⟨"c", "out1\n", some "c2.txt", []⟩ :=
  claim_C1 exA cfgB cfgChild 1 "out1\n" rfl rfl rfl

/-- Claim C2: every produced `SubReportResult` comes from some spec of the
fallback chain (the one whose script succeeded with the recorded raw
output), and its `summaries` list has exactly the length of that spec's
`summary_configs`, however many summary scripts failed. -/
theorem claim_C2 (ex : Exec) (cfg : CommandConfig) (r : SubReportResult)
    (h : run_command ex cfg = some r) :
    ∃ c, c ∈ chain cfg ∧ ex.cmd c.script = some r.raw_output ∧
      r.summaries.length = c.summary_configs.length :=
  run_command_mem_chain ex cfg r h

/-- Witness for C2. -/
theorem claim_C2_witness :
    ∃ c, c ∈ chain cfgB ∧ exA.cmd c.script = some "out1\n" ∧
      0 = c.summary_configs.length :=
  claim_C2 exA cfgB ⟨"c", "out1\n", some "c2.txt", []⟩ rfl

/-- Claim C3: if any configured command (anywhere in its fallback tree)
demands `superuser: required` while the process is not root, reading the
configuration aborts, and the whole run returns nothing for EVERY execution
oracle — no command is ever executed and no archive file list is
produced. -/
theorem claim_C3 (raw : List (String × RawCommand))
    (h : raw.any (fun p => hasRequiredPriv p.2) = true) :
    read_commands false raw = none ∧
    ∀ (ex : Exec) (render : List SubReportResult → String) (css : String)
      (st : DirTree), generate_system_report ex render css st raw false = none := by
  obtain ⟨p, hp, hreq⟩ := List.any_eq_true.mp h
  have hrc : read_commands false raw = none :=
    read_commands_none_of_mem raw ⟨p, hp, hreq⟩
  exact ⟨hrc, fun ex render css st => by simp [generate_system_report, hrc]⟩

/-- Witness for C3. -/
theorem claim_C3_witness :
    read_commands false rawReq = none ∧
    generate_system_report exA renderH "c" stFlat rawReq false = none :=
  ⟨(claim_C3 rawReq rfl).1, (claim_C3 rawReq rfl).2 exA renderH "c" stFlat⟩

/-- Counterexample for C4: on the `net` example configuration (`rawNet`,
the shape claimed in the spec) the run does NOT succeed: even with an
oracle under which `false` fails and `echo fallback-ok` prints
`fallback-ok` plus newline, the whole pipeline aborts with a configuration
error (`none`), so no archive — in particular no `net.txt` entry — is
produced. -/
theorem claim_C4_counterexample :
    generate_system_report exC4 renderH "" stFlat [("net", rawNet)] false = none := rfl

/-- Claim C4 (amended): for that configuration, configuration validation
rejects the top-level `net` object (it has `run` but lacks the `output`
field the code requires), so the whole run aborts before any command is
attempted and no archive is produced, for every oracle and whether or not
the process is root. -/
theorem claim_C4 :
    parseCommand false "net" rawNet = none ∧
    ∀ (ex : Exec) (render : List SubReportResult → String) (css : String)
      (st : DirTree) (isRoot : Bool),
      generate_system_report ex render css st [("net", rawNet)] isRoot = none :=
  ⟨rfl, fun ex render css st isRoot => by cases isRoot <;> rfl⟩

/-- Counterexample for C5: a command object that contains `run` but omits
`output` is NOT accepted — configuration loading rejects it fatally. -/
theorem claim_C5_counterexample :
    parseCommand false "x" rawNoOutput = none := rfl

/-- Claim C5 (amended): `output` is required, not optional: every command
object that omits the `output` key is rejected by configuration loading
(`sys.exit(1)`), whatever its other fields, its name, or the process
privilege. -/
theorem claim_C5 (isRoot : Bool) (name : String) (run su : Option String)
    (summ : List RawSummary) (onFail : Option RawCommand) :
    parseCommand isRoot name (.mk run none su summ onFail) = none := by
  cases onFail <;> simp [parseCommand]

/-- Claim C6: when a command's script succeeds but the summary script at
position `i` fails on its raw output, the command still produces its
`SubReportResult` (the failure is not propagated), and the summary at
position `i` is present with the literal sentinel content
`"this summary is empty"` (and the spec's title). -/
theorem claim_C6 (ex : Exec) (cfg : CommandConfig) (out : String) (i : Nat)
    (sc : SummaryConfig)
    (hrun : ex.cmd cfg.script = some out)
    (hi : cfg.summary_configs.get? i = some sc)
    (hfail : ex.summary sc.script out = none) :
    run_command ex cfg =
      some ⟨cfg.name, out, cfg.output_file, run_summaries ex out cfg.summary_configs⟩ ∧
    (run_summaries ex out cfg.summary_configs).get? i =
      some ⟨sc.title, "this summary is empty"⟩ :=
  ⟨run_command_of_success ex cfg out hrun,
   run_summaries_get ex out cfg.summary_configs i sc hi hfail⟩

/-- Witness for C6: a command with one always-failing summary script. -/
theorem claim_C6_witness :
    run_command exA cfgC =
      some ⟨"c", "out1\n", none, [⟨"t1", "this summary is empty"⟩]⟩ ∧
    (run_summaries exA "out1\n" [⟨"t1", "sumbad"⟩]).get? 0 =
      some ⟨"t1", "this summary is empty"⟩ :=
  claim_C6 exA cfgC "out1\n" 0 ⟨"t1", "sumbad"⟩ rfl rfl rfl

/-- Claim C7: whenever the pipeline completes, the produced file list is,
in order: the `(outputFile, rawOutput)` pairs of the successful commands in
execution order, then the rendered HTML index under
`system_report_summary.html`, then the stylesheet under `style.css`, then
the static-asset entries in the order the directory walk yields them. -/
theorem claim_C7 (ex : Exec) (render : List SubReportResult → String)
    (css : String) (st : DirTree) (raw : List (String × RawCommand))
    (isRoot : Bool) (configs : List CommandConfig) (out : List (String × String))
    (h1 : read_commands isRoot raw = some configs)
    (h2 : generate_system_report ex render css st raw isRoot = some out) :
    ∃ staticTail, read_files_from_dir st [] = some staticTail ∧
      out = commandFiles ex configs ++
        [("system_report_summary.html", render (subReportsOf ex configs))] ++
        [("style.css", css)] ++ staticTail := by
  simp only [generate_system_report, h1] at h2
  rw [read_files_append] at h2
  cases h3 : read_files_from_dir st [] with
  | none => rw [h3] at h2; cases h2
  | some tail =>
    rw [h3] at h2
    simp only [Option.map_some'] at h2
    injection h2 with h2
    refine ⟨tail, rfl, ?_⟩
    rw [← h2, reportLoop_fst, reportLoop_snd]

/-- Witness for C7: one successful command with an output file and one flat
static directory. -/
theorem claim_C7_witness :
    ∃ staticTail, read_files_from_dir stFlat [] = some staticTail ∧
      [("disk.txt", "out1\n"), ("system_report_summary.html", "H"),
        ("style.css", "c"), ("static/s.txt", "z")] =
        commandFiles exA [cfgDisk] ++
          [("system_report_summary.html", renderH (subReportsOf exA [cfgDisk]))] ++
          [("style.css", "c")] ++ staticTail :=
  claim_C7 exA renderH "c" stFlat rawDisk false [cfgDisk]
    [("disk.txt", "out1\n"), ("system_report_summary.html", "H"),
      ("style.css", "c"), ("static/s.txt", "z")] rfl rfl

/-- Counterexample for C8: a static-assets tree with one nested
subdirectory holding `a.txt`.  The walk does NOT register the nested file
with its content: it opens the name relative to the top directory, where it
does not exist, so the whole walk fails (`none`) instead of producing
entries. -/
theorem claim_C8_counterexample : read_files_from_dir stNested [] = none := rfl

/-- Claim C8 (amended): for a static-assets directory with no nested
subdirectories, the walk registers every regular file, in order, exactly as
an entry `static/<filename>` with the file's content.  (With nested
subdirectories the walk re-opens each discovered filename relative to the
top-level directory, so it fails — or duplicates top-level content — rather
than registering nested files faithfully.) -/
theorem claim_C8 (fs dest : List (String × String))
    (hnd : (fs.map Prod.fst).Nodup) :
    read_files_from_dir (.node fs .nil) dest =
      some (dest ++ fs.map (fun p => ("static/" ++ p.1, p.2))) := by
  have hl : ∀ p ∈ fs, lookupFile (DirTree.files (.node fs .nil)) p.1 = some p.2 := by
    intro p hp
    obtain ⟨n, c⟩ := p
    exact lookup_self_of_nodup fs n c hnd hp
  simp only [read_files_from_dir, visit]
  rw [openAll_lookup (.node fs .nil) fs dest hl]
  simp [visitSelf, visitSub]

/-- Witness for C8 (amended). -/
theorem claim_C8_witness :
    read_files_from_dir (.node [("a.txt", "x"), ("b.txt", "y")] .nil) [] =
      some [("static/a.txt", "x"), ("static/b.txt", "y")] := by
  have h := claim_C8 [("a.txt", "x"), ("b.txt", "y")] [] (by decide)
  simpa using h

/-- Claim C9: when every configured spec (including fallback specs) asks at
most for `superuser: preferred`, running without elevated privilege parses
to exactly the same configs as running as root, and the whole pipeline
produces exactly the same file list — the privilege mismatch only emits a
warning and the commands still execute unchanged, their results included
exactly as with privilege. -/
theorem claim_C9 (raw : List (String × RawCommand))
    (h : raw.all (fun p => onlyPreferredPriv p.2) = true) :
    read_commands false raw = read_commands true raw ∧
    ∀ (ex : Exec) (render : List SubReportResult → String) (css : String)
      (st : DirTree),
      generate_system_report ex render css st raw false =
        generate_system_report ex render css st raw true := by
  have hrc := read_commands_root_indep raw h
  exact ⟨hrc, fun ex render css st => by simp only [generate_system_report, hrc]⟩

/-- Witness for C9. -/
theorem claim_C9_witness :
    read_commands false rawPref = read_commands true rawPref ∧
    generate_system_report exA renderH "c" stFlat rawPref false =
      generate_system_report exA renderH "c" stFlat rawPref true :=
  ⟨(claim_C9 rawPref rfl).1, (claim_C9 rawPref rfl).2 exA renderH "c" stFlat⟩

/-- Claim C10: when the primary script fails and the fallback succeeds, the
returned `SubReportResult` carries the FALLBACK spec's `output_file`, but
the archive pair contributed by the command loop is named by the TOP-LEVEL
spec's `output_file` — and only exists when the top-level spec declares a
truthy one; the fallback's own `output_file` is never used as an entry
name. -/
theorem claim_C10 (ex : Exec) (cfg fb : CommandConfig) (out : String)
    (h1 : ex.cmd cfg.script = none)
    (h2 : cfg.on_fail = some fb)
    (h3 : ex.cmd fb.script = some out) :
    ∃ r, run_command ex cfg = some r ∧ r.raw_output = out ∧
      r.output_file = fb.output_file ∧
      (reportLoop ex [cfg]).1 =
        (if optTruthy cfg.output_file
          then [(cfg.output_file.getD "", out)] else []) := by
  cases cfg with
  | mk n s scs outf onf =>
    simp only [CommandConfig.on_fail] at h2
    subst h2
    simp only [CommandConfig.script] at h1
    have hrc : run_command ex (.mk n s scs outf (some fb)) =
        some ⟨fb.name, out, fb.output_file, run_summaries ex out fb.summary_configs⟩ := by
      simp only [run_command, h1]
      exact run_command_of_success ex fb out h3
    refine ⟨_, hrc, rfl, rfl, ?_⟩
    simp only [reportLoop, hrc]

/-- Witness for C10: the fallback declares `c2.txt` but the contributed
archive pair is named by the top-level `c.txt`. -/
theorem claim_C10_witness :
    ∃ r, run_command exA cfgB = some r ∧ r.raw_output = "out1\n" ∧
      r.output_file = some "c2.txt" ∧
      (reportLoop exA [cfgB]).1 = [("c.txt", "out1\n")] :=
  claim_C10 exA cfgB cfgChild "out1\n" rfl rfl rfl

end Plaster
